import Mathlib

/-!
# Start/stop schedule resource of a SQL managed instance

A shallow embedding of
`internal/services/mssqlmanagedinstance/mssql_managed_instance_start_stop_schedule_resource.go`:
the two mapper functions and the four lifecycle operations, over explicit
models of Go pointers (`Option`), Go slices (`Slice`, which keeps the nil
slice apart from an allocated one) and the collaborators the operations call
(the remote client, the identifier parsers and the hosting framework's
resource metadata).
-/

namespace MssqlManagedInstance

/-! ## Go values -/

/-- Go slice value: `nil` is the nil slice (the zero value of a slice type),
`of l` is an allocated slice holding the elements `l` in order. -/
inductive Slice (α : Type) where
  | nil : Slice α
  | of : List α → Slice α
  deriving DecidableEq, Repr

namespace Slice

/-- The elements a `range` loop visits, in order; none for the nil slice. -/
def toList {α : Type} : Slice α → List α
  | nil => []
  | of l => l

/-- Go `len`. -/
def len {α : Type} (s : Slice α) : Nat := s.toList.length

/-- Go `append(s, x)` with one element: the result is always allocated. -/
def append {α : Type} : Slice α → α → Slice α
  | nil, x => of [x]
  | of l, x => of (l ++ [x])

/-- The slice built by appending the elements of `xs`, one at a time, to the
nil slice: still nil when `xs` is empty, allocated otherwise. -/
def collect {α : Type} : List α → Slice α
  | [] => nil
  | x :: xs => of (x :: xs)

/-- Go comparison `s == nil`. -/
def isNil {α : Type} : Slice α → Bool
  | nil => true
  | of _ => false

end Slice

/-- A Go pointer `*T`: `none` is the nil pointer. -/
abbrev Ptr (α : Type) := Option α

/-- The helper `pointer.From`: the pointed-to slice, or the zero value (the
nil slice) for a nil pointer. -/
def pointerFrom {α : Type} : Ptr (Slice α) → Slice α
  | none => Slice.nil
  | some s => s

/-! ## Data model -/

/-- The SDK type `schedule.DayOfWeek`, a string type. -/
abbrev DayOfWeek := String

/-- Local schedule entry (`ScheduleItemModel`). -/
structure ScheduleItemModel where
  StartDay : DayOfWeek
  StartTime : String
  StopDay : DayOfWeek
  StopTime : String
  deriving DecidableEq, Repr

/-- Local state model (`SqlManagedInstanceStartStopScheduleModel`). -/
structure SqlManagedInstanceStartStopScheduleModel where
  Name : String := ""
  SqlManagedInstanceId : String := ""
  Description : String := ""
  ScheduleList : Slice ScheduleItemModel := Slice.nil
  TimeZoneId : String := ""
  NextExecutionTime : String := ""
  NextRunAction : String := ""
  deriving DecidableEq, Repr

/-- Modelled from the spec: the SDK's remote schedule entry `schedule.ScheduleItem`,
whose declaration is outside the source file; the four fields are the ones the
mapper copies. -/
structure ScheduleItem where
  StartDay : DayOfWeek
  StartTime : String
  StopDay : DayOfWeek
  StopTime : String
  deriving DecidableEq, Repr

/-- Modelled from the spec: the server-assigned metadata `systemdata.SystemData`
carried by a remote payload; its declaration is outside the source file and the
resource only ever clears it. -/
structure SystemData where
  CreatedAt : String
  CreatedBy : String
  CreatedByType : String
  LastModifiedAt : String
  LastModifiedBy : String
  LastModifiedByType : String
  deriving DecidableEq, Repr

/-- Modelled from the spec: the SDK's `schedule.StartStopManagedInstanceScheduleProperties`,
whose declaration is outside the source file. The field types are the ones the
source relies on: nullable strings, and a slice (not a pointer) for the
schedule list. -/
structure StartStopManagedInstanceScheduleProperties where
  Description : Ptr String := none
  NextExecutionTime : Ptr String := none
  NextRunAction : Ptr String := none
  ScheduleList : Slice ScheduleItem := Slice.nil
  TimeZoneId : Ptr String := none
  deriving DecidableEq, Repr

/-- Modelled from the spec: the SDK's remote payload `schedule.StartStopManagedInstanceSchedule`,
whose declaration is outside the source file. `Name`, `Properties` and
`SystemData` are the fields the source touches; `Id` and `Type` (here `Type_`,
as `Type` is reserved) are the two remaining fields of the resource envelope,
which the source never mentions. -/
structure StartStopManagedInstanceSchedule where
  Id : Ptr String := none
  Name : Ptr String := none
  Properties : Ptr StartStopManagedInstanceScheduleProperties := none
  SystemData : Ptr SystemData := none
  Type_ : Ptr String := none
  deriving DecidableEq, Repr

/-! ## Mapper -/

/-- The function `expandScheduleItemModelArray`: starts from the nil slice, appends one
remote entry per local entry, and returns the address of the result. -/
def expandScheduleItemModelArray (inputList : Slice ScheduleItemModel) :
    Ptr (Slice ScheduleItem) :=
  let outputList : Slice ScheduleItem :=
    inputList.toList.foldl
      (fun outputList v =>
        let input := v
        let output : ScheduleItem :=
          { StartDay := input.StartDay
            StartTime := input.StartTime
            StopDay := input.StopDay
            StopTime := input.StopTime }
        outputList.append output)
      Slice.nil
  some outputList

/-- The function `flattenScheduleItemModelArray`: the nil slice for a nil pointer,
otherwise the nil slice with one local entry appended per remote entry. -/
def flattenScheduleItemModelArray (inputList : Ptr (Slice ScheduleItem)) :
    Slice ScheduleItemModel :=
  let outputList : Slice ScheduleItemModel := Slice.nil
  match inputList with
  | none => outputList
  | some inputList =>
    inputList.toList.foldl
      (fun outputList input =>
        let output : ScheduleItemModel :=
          { StartDay := input.StartDay
            StartTime := input.StartTime
            StopDay := input.StopDay
            StopTime := input.StopTime }
        outputList.append output)
      outputList

/-! ## Identifiers -/

/-- Modelled from the spec: the owner identifier `commonids.SqlManagedInstanceId`
(subscription, resource group, instance name); its declaration is outside the
source file. -/
structure SqlManagedInstanceId where
  SubscriptionId : String
  ResourceGroupName : String
  ManagedInstanceName : String
  deriving DecidableEq, Repr

/-- Modelled from the spec: the schedule identifier of the package `parse`
(the owner's three parts plus the schedule name); its declaration is outside
the source file. -/
structure ManagedInstanceStartStopScheduleId where
  SubscriptionId : String
  ResourceGroup : String
  ManagedInstanceName : String
  StartStopScheduleName : String
  deriving DecidableEq, Repr

/-- Modelled from the spec: the constructor `commonids.NewSqlManagedInstanceID`, which
produces the owner identifier from its three parts. -/
def NewSqlManagedInstanceID (subscriptionId resourceGroupName managedInstanceName : String) :
    SqlManagedInstanceId :=
  { SubscriptionId := subscriptionId
    ResourceGroupName := resourceGroupName
    ManagedInstanceName := managedInstanceName }

/-- Modelled from the spec: the constructor `parse.NewManagedInstanceStartStopScheduleID`,
which produces the schedule identifier from its four parts. -/
def NewManagedInstanceStartStopScheduleID
    (subscriptionId resourceGroup managedInstanceName startStopScheduleName : String) :
    ManagedInstanceStartStopScheduleId :=
  { SubscriptionId := subscriptionId
    ResourceGroup := resourceGroup
    ManagedInstanceName := managedInstanceName
    StartStopScheduleName := startStopScheduleName }

/-! ## Errors and collaborators -/

/-- An error value produced by a collaborator (remote client, identifier
parser, hosting framework); only its presence matters to the resource. -/
abbrev Fault := String

/-- The error values the four operations return, one constructor per
`return` site of the source. -/
inductive Error where
  /-- The statement `return err`, and the returns of `metadata.MarkAsGone` and
  `metadata.Encode`: a collaborator's error handed back unchanged. -/
  | passed (cause : Fault)
  /-- The message `decoding: %+v`. -/
  | decoding (cause : Fault)
  /-- The message `managedInstanceId is nil`. -/
  | managedInstanceIdIsNil
  /-- The message `checking for existing %s: %+v`. -/
  | checkingForExisting (id : SqlManagedInstanceId) (cause : Fault)
  /-- The return of `metadata.ResourceRequiresImport(r.ResourceType(), id)`. -/
  | requiresImport (resourceType : String) (id : SqlManagedInstanceId)
  /-- The message `creating %s: %+v`. -/
  | creating (id : SqlManagedInstanceId) (cause : Fault)
  /-- The message `retrieving %s: %+v`. -/
  | retrieving (id : SqlManagedInstanceId) (cause : Fault)
  /-- The message `retrieving %s: properties was nil`. -/
  | propertiesWasNil (id : SqlManagedInstanceId)
  /-- The message `updating %s: %+v`. -/
  | updating (id : SqlManagedInstanceId) (cause : Fault)
  /-- The message `deleting %s: %+v`. -/
  | deleting (id : ManagedInstanceStartStopScheduleId) (cause : Fault)
  deriving DecidableEq, Repr

/-- The error kind `RemoteCallFailure`: an error wrapping a remote call's
failure in a message qualified by operation and identifier. The nil-payload
error of Update counts as a retrieval failure. -/
def Error.isRemoteCallFailure : Error → Bool
  | .checkingForExisting _ _ => true
  | .creating _ _ => true
  | .retrieving _ _ => true
  | .propertiesWasNil _ => true
  | .updating _ _ => true
  | .deleting _ _ => true
  | _ => false

/-- The error kind `AlreadyExists`: the requires-import error. -/
def Error.isAlreadyExists : Error → Bool
  | .requiresImport _ _ => true
  | _ => false

/-- How an operation's function ends: it returns an `error` value (`none` is
Go's nil error, success), or it panics on a nil pointer dereference. -/
inductive Outcome where
  | returned (err : Option Error)
  | panicked
  deriving DecidableEq, Repr

/-- Modelled from the spec: the part of `*http.Response` the resource looks at. -/
structure HttpResponse where
  StatusCode : Nat
  deriving DecidableEq, Repr

/-- Modelled from the spec: the helper `response.WasNotFound`, true exactly for a
non-nil response with status 404. -/
def WasNotFound (resp : Ptr HttpResponse) : Bool :=
  match resp with
  | none => false
  | some r => r.StatusCode == 404

/-- Modelled from the spec: the client's `GetOperationResponse`, with the two fields the
source reads. -/
structure GetOperationResponse where
  HttpResponse : Ptr HttpResponse := none
  Model : Ptr StartStopManagedInstanceSchedule := none
  deriving DecidableEq, Repr

/-- The remote management client, over a remote state `σ`: each call sees the
remote state and leaves a new one. The second return value is Go's `error`
(`none` is nil). -/
structure ManagedInstanceStartStopSchedulesClient (σ : Type) where
  Get : SqlManagedInstanceId → σ → (GetOperationResponse × Option Fault) × σ
  CreateOrUpdate : SqlManagedInstanceId → StartStopManagedInstanceSchedule → σ →
    Option Fault × σ
  Delete : SqlManagedInstanceId → σ → Option Fault × σ

/-- The identifier parser collaborator. A parser returns Go's pair of a pointer
and an error; `ID` is the owner identifier's string form. -/
structure Identifiers where
  ParseSqlManagedInstanceID : String → Ptr SqlManagedInstanceId × Option Fault
  ManagedInstanceStartStopScheduleID :
    String → Ptr ManagedInstanceStartStopScheduleId × Option Fault
  ID : SqlManagedInstanceId → String

/-- What the hosting framework hands to an operation (`sdk.ResourceMetaData`):
the decoded configuration, the tracked attribute `managed_instance_id`, the
tracked resource identifier, the change flags, and the results of the
framework calls that return an error. -/
structure ResourceMetaData where
  Decode : Except Fault SqlManagedInstanceStartStopScheduleModel
  managed_instance_id : String
  Id : String
  HasChange : String → Bool
  MarkAsGone : SqlManagedInstanceId → Option Fault
  Encode : SqlManagedInstanceStartStopScheduleModel → Option Fault

/-- The calls an operation issues, to the remote client and to the framework,
as recorded in order. -/
inductive Effect where
  | Get (id : SqlManagedInstanceId)
  | CreateOrUpdate (id : SqlManagedInstanceId) (input : StartStopManagedInstanceSchedule)
  | Delete (id : SqlManagedInstanceId)
  | SetID (id : ManagedInstanceStartStopScheduleId)
  | MarkAsGone (id : SqlManagedInstanceId)
  | Encode (state : SqlManagedInstanceStartStopScheduleModel)
  deriving DecidableEq, Repr

/-- Whether an effect is a remote `CreateOrUpdate` call. -/
def Effect.isCreateOrUpdate : Effect → Bool
  | .CreateOrUpdate _ _ => true
  | _ => false

/-- The result of running an operation: how it ended, the remote state it
left, and the calls it issued in order. -/
structure Run (σ : Type) where
  ret : Outcome
  remote : σ
  effects : List Effect

/-- The method `ResourceType`. -/
def ResourceType : String := "azurerm_mssql_managed_instance_start_stop_schedule"

/-! ## Lifecycle operations -/

/-- The payload block of `Create`, from the allocation of `properties` to the
last conditional assignment before the CreateOrUpdate call. -/
def createProperties (model : SqlManagedInstanceStartStopScheduleModel) :
    StartStopManagedInstanceSchedule :=
  let body : StartStopManagedInstanceScheduleProperties := {}
  let body :=
    if model.Description ≠ "" then { body with Description := some model.Description }
    else body
  let body :=
    { body with
      ScheduleList := pointerFrom (expandScheduleItemModelArray model.ScheduleList) }
  let body :=
    if model.TimeZoneId ≠ "" then { body with TimeZoneId := some model.TimeZoneId }
    else body
  { Properties := some body }

/-- The function of `Create`. -/
def Create {σ : Type} (ids : Identifiers) (client : ManagedInstanceStartStopSchedulesClient σ)
    (metadata : ResourceMetaData) (s : σ) : Run σ :=
  match metadata.Decode with
  | .error err => ⟨.returned (some (.decoding err)), s, []⟩
  | .ok model =>
    match ids.ParseSqlManagedInstanceID model.SqlManagedInstanceId with
    | (_, some err) => ⟨.returned (some (.passed err)), s, []⟩
    | (none, none) => ⟨.returned (some .managedInstanceIdIsNil), s, []⟩
    | (some managedInstanceId, none) =>
      let id := managedInstanceId
      let ((existing, err), s1) := client.Get id s
      -- everything after the first `if`
      let rest : Run σ :=
        if !WasNotFound existing.HttpResponse then
          ⟨.returned (some (.requiresImport ResourceType id)), s1, [.Get id]⟩
        else
          let properties := createProperties model
          let (err, s2) := client.CreateOrUpdate id properties s1
          match err with
          | some err =>
            ⟨.returned (some (.creating id err)), s2, [.Get id, .CreateOrUpdate id properties]⟩
          | none =>
            let scheduleID :=
              NewManagedInstanceStartStopScheduleID id.SubscriptionId id.ResourceGroupName
                id.ManagedInstanceName "default"
            ⟨.returned none, s2,
              [.Get id, .CreateOrUpdate id properties, .SetID scheduleID]⟩
      match err with
      | some err =>
        if !WasNotFound existing.HttpResponse then
          ⟨.returned (some (.checkingForExisting id err)), s1, [.Get id]⟩
        else rest
      | none => rest

/-- An assignment `properties.Properties.f = v` of `Update`: it writes through
the pointer `properties.Properties`, and is a nil pointer dereference (`none`)
when that pointer is nil. -/
def assignProperties (properties : StartStopManagedInstanceSchedule)
    (f : StartStopManagedInstanceScheduleProperties → StartStopManagedInstanceScheduleProperties) :
    Option StartStopManagedInstanceSchedule :=
  match properties.Properties with
  | none => none
  | some body => some { properties with Properties := some (f body) }

/-- The patching block of `Update`, from the first `HasChange` to the clearing
of `SystemData`; `none` is a panic. -/
def patchProperties (metadata : ResourceMetaData)
    (model : SqlManagedInstanceStartStopScheduleModel)
    (properties : StartStopManagedInstanceSchedule) :
    Option StartStopManagedInstanceSchedule := do
  let properties ←
    if metadata.HasChange "description" then
      if model.Description ≠ "" then
        assignProperties properties (fun b => { b with Description := some model.Description })
      else
        assignProperties properties (fun b => { b with Description := none })
    else pure properties
  let properties ←
    if metadata.HasChange "schedule_list" then
      assignProperties properties (fun b =>
        { b with ScheduleList := pointerFrom (expandScheduleItemModelArray model.ScheduleList) })
    else pure properties
  let properties ←
    if metadata.HasChange "timezone_id" then
      if model.TimeZoneId ≠ "" then
        assignProperties properties (fun b => { b with TimeZoneId := some model.TimeZoneId })
      else
        assignProperties properties (fun b => { b with TimeZoneId := none })
    else pure properties
  pure { properties with SystemData := none }

/-- The function of `Update`. -/
def Update {σ : Type} (ids : Identifiers) (client : ManagedInstanceStartStopSchedulesClient σ)
    (metadata : ResourceMetaData) (s : σ) : Run σ :=
  match ids.ParseSqlManagedInstanceID metadata.managed_instance_id with
  | (_, some err) => ⟨.returned (some (.passed err)), s, []⟩
  | (managedInstanceId, none) =>
    match metadata.Decode with
    | .error err => ⟨.returned (some (.decoding err)), s, []⟩
    | .ok model =>
      match managedInstanceId with
      | none => ⟨.panicked, s, []⟩
      | some id =>
        let ((resp, err), s1) := client.Get id s
        match err with
        | some err => ⟨.returned (some (.retrieving id err)), s1, [.Get id]⟩
        | none =>
          match resp.Model with
          | none => ⟨.returned (some (.propertiesWasNil id)), s1, [.Get id]⟩
          | some properties =>
            match patchProperties metadata model properties with
            | none => ⟨.panicked, s1, [.Get id]⟩
            | some properties =>
              let (err, s2) := client.CreateOrUpdate id properties s1
              match err with
              | some err =>
                ⟨.returned (some (.updating id err)), s2,
                  [.Get id, .CreateOrUpdate id properties]⟩
              | none => ⟨.returned none, s2, [.Get id, .CreateOrUpdate id properties]⟩

/-- The state `Read` builds from a Get response, before encoding it. -/
def readState (ids : Identifiers) (managedInstanceId : SqlManagedInstanceId)
    (resp : GetOperationResponse) : SqlManagedInstanceStartStopScheduleModel :=
  let state : SqlManagedInstanceStartStopScheduleModel :=
    { SqlManagedInstanceId := ids.ID managedInstanceId }
  match resp.Model with
  | none => state
  | some model =>
    let state :=
      match model.Name with
      | some name => { state with Name := name }
      | none => state
    match model.Properties with
    | none => state
    | some properties =>
      let state :=
        match properties.Description with
        | some v => { state with Description := v }
        | none => state
      let state :=
        match properties.NextExecutionTime with
        | some v => { state with NextExecutionTime := v }
        | none => state
      let state :=
        match properties.NextRunAction with
        | some v => { state with NextRunAction := v }
        | none => state
      let state :=
        if !properties.ScheduleList.isNil then
          { state with
            ScheduleList := flattenScheduleItemModelArray (some properties.ScheduleList) }
        else state
      let state :=
        match properties.TimeZoneId with
        | some v => { state with TimeZoneId := v }
        | none => state
      state

/-- The function of `Read`. -/
def Read {σ : Type} (ids : Identifiers) (client : ManagedInstanceStartStopSchedulesClient σ)
    (metadata : ResourceMetaData) (s : σ) : Run σ :=
  match ids.ParseSqlManagedInstanceID metadata.managed_instance_id with
  | (_, some err) => ⟨.returned (some (.passed err)), s, []⟩
  | (none, none) => ⟨.panicked, s, []⟩
  | (some managedInstanceId, none) =>
    let ((resp, err), s1) := client.Get managedInstanceId s
    match err with
    | some err =>
      if WasNotFound resp.HttpResponse then
        ⟨.returned ((metadata.MarkAsGone managedInstanceId).map .passed), s1,
          [.Get managedInstanceId, .MarkAsGone managedInstanceId]⟩
      else
        ⟨.returned (some (.retrieving managedInstanceId err)), s1, [.Get managedInstanceId]⟩
    | none =>
      let state := readState ids managedInstanceId resp
      ⟨.returned ((metadata.Encode state).map .passed), s1,
        [.Get managedInstanceId, .Encode state]⟩

/-- The function of `Delete`. -/
def Delete {σ : Type} (ids : Identifiers) (client : ManagedInstanceStartStopSchedulesClient σ)
    (metadata : ResourceMetaData) (s : σ) : Run σ :=
  match ids.ManagedInstanceStartStopScheduleID metadata.Id with
  | (_, some err) => ⟨.returned (some (.passed err)), s, []⟩
  | (none, none) => ⟨.panicked, s, []⟩
  | (some id, none) =>
    let managedInstanceID :=
      NewSqlManagedInstanceID id.SubscriptionId id.ResourceGroup id.ManagedInstanceName
    let (err, s1) := client.Delete managedInstanceID s
    match err with
    | some err => ⟨.returned (some (.deleting id err)), s1, [.Delete managedInstanceID]⟩
    | none => ⟨.returned none, s1, [.Delete managedInstanceID]⟩

/-! ## A remote store -/

/-- A remote that stores at most one schedule per owner: `none` is Absent. -/
abbrev Store := SqlManagedInstanceId → Option StartStopManagedInstanceSchedule

/-- The client of a remote store. While an owner is Absent, Get answers with
`absent` (a response and an error); once a payload is stored, Get answers with
that payload, the response `present` and no error. CreateOrUpdate stores its
payload and Delete removes it; neither fails. -/
def storeClient (absent : GetOperationResponse × Option Fault) (present : Ptr HttpResponse) :
    ManagedInstanceStartStopSchedulesClient Store where
  Get := fun id st =>
    match st id with
    | none => (absent, st)
    | some p => (({ HttpResponse := present, Model := some p }, none), st)
  CreateOrUpdate := fun id input st => (none, Function.update st id (some input))
  Delete := fun id st => (none, Function.update st id none)

/-! ## Sample collaborators and inputs -/

/-- A sample owner identifier. -/
def sampleOwner : SqlManagedInstanceId :=
  { SubscriptionId := "sub1", ResourceGroupName := "rg1", ManagedInstanceName := "mi1" }

/-- A sample identifier collaborator: the string `owner` parses to `sampleOwner`,
the string `schedule` parses to its schedule identifier, anything else is an error. -/
def sampleIds : Identifiers where
  ParseSqlManagedInstanceID := fun str =>
    if str = "owner" then (some sampleOwner, none) else (none, some "invalid id")
  ManagedInstanceStartStopScheduleID := fun str =>
    if str = "schedule" then
      (some { SubscriptionId := "sub1", ResourceGroup := "rg1", ManagedInstanceName := "mi1",
              StartStopScheduleName := "default" }, none)
    else (none, some "invalid id")
  ID := fun _ => "owner"

/-- A sample schedule entry: Monday 08:00 to Friday 18:00. -/
def sampleEntry : ScheduleItemModel :=
  { StartDay := "Monday", StartTime := "08:00", StopDay := "Friday", StopTime := "18:00" }

/-- A sample declared configuration with an empty description and timezone. -/
def sampleModel : SqlManagedInstanceStartStopScheduleModel :=
  { SqlManagedInstanceId := "owner", ScheduleList := Slice.of [sampleEntry] }

/-- Sample metadata that reports no field as changed. -/
def sampleMetadataUnchanged : ResourceMetaData where
  Decode := .ok sampleModel
  managed_instance_id := "owner"
  Id := "schedule"
  HasChange := fun _ => false
  MarkAsGone := fun _ => none
  Encode := fun _ => none

/-- Sample metadata: decodes to `sampleModel` and reports `description` and
`timezone_id` as changed. -/
def sampleMetadata : ResourceMetaData where
  Decode := .ok sampleModel
  managed_instance_id := "owner"
  Id := "schedule"
  HasChange := fun k => k == "description" || k == "timezone_id"
  MarkAsGone := fun _ => none
  Encode := fun _ => none

/-- A sample client whose Get always answers with the given response and error,
and whose writes succeed; the remote state is trivial. -/
def fixedClient (resp : GetOperationResponse) (err : Option Fault) (del : Option Fault) :
    ManagedInstanceStartStopSchedulesClient Unit where
  Get := fun _ st => ((resp, err), st)
  CreateOrUpdate := fun _ _ st => (none, st)
  Delete := fun _ st => (del, st)

/-- A sample fetched payload with every field present. -/
def sampleFetched : StartStopManagedInstanceSchedule :=
  { Id := some "id1"
    Name := some "default"
    Properties := some
      { Description := some "old", NextExecutionTime := some "t", NextRunAction := some "Start",
        ScheduleList := Slice.of [], TimeZoneId := some "UTC" }
    SystemData := some
      { CreatedAt := "a", CreatedBy := "b", CreatedByType := "c", LastModifiedAt := "d",
        LastModifiedBy := "e", LastModifiedByType := "f" }
    Type_ := some "t1" }

/-! ## Mapper lemmas -/

/-- Appending to an allocated slice. -/
theorem append_of {α : Type} (l : List α) (x : α) :
    Slice.append (Slice.of l) x = Slice.of (l ++ [x]) := rfl

/-- Appending to the nil slice. -/
theorem append_nil {α : Type} (x : α) :
    Slice.append (Slice.nil : Slice α) x = Slice.of [x] := rfl

/-- Appending mapped elements one by one to an allocated slice. -/
theorem foldl_append_of {α β : Type} (f : α → β) (xs : List α) (acc : List β) :
    xs.foldl (fun out v => Slice.append out (f v)) (Slice.of acc) = Slice.of (acc ++ xs.map f) := by
  induction xs generalizing acc with
  | nil => simp
  | cons x xs ih => simp only [List.foldl_cons, append_of, ih, List.map_cons]; simp

/-- Appending mapped elements one by one to the nil slice: the nil slice when
there is nothing to append, otherwise the allocated slice of the mapped elements. -/
theorem foldl_append_nil {α β : Type} (f : α → β) (xs : List α) :
    xs.foldl (fun out v => Slice.append out (f v)) Slice.nil = Slice.collect (xs.map f) := by
  cases xs with
  | nil => rfl
  | cons x xs => simp only [List.foldl_cons, append_nil, foldl_append_of]; simp [Slice.collect]

/-- The elements of a collected slice. -/
theorem collect_toList {α : Type} (xs : List α) : (Slice.collect xs).toList = xs := by
  cases xs <;> rfl

/-- The expanded slice, in closed form. -/
theorem expand_eq (l : Slice ScheduleItemModel) :
    expandScheduleItemModelArray l =
      some (Slice.collect (l.toList.map (fun v =>
        ({ StartDay := v.StartDay, StartTime := v.StartTime, StopDay := v.StopDay,
           StopTime := v.StopTime } : ScheduleItem)))) := by
  simp only [expandScheduleItemModelArray]
  rw [foldl_append_nil]

/-- The flattened slice of a non-nil pointer, in closed form. -/
theorem flatten_some (r : Slice ScheduleItem) :
    flattenScheduleItemModelArray (some r) =
      Slice.collect (r.toList.map (fun v =>
        ({ StartDay := v.StartDay, StartTime := v.StartTime, StopDay := v.StopDay,
           StopTime := v.StopTime } : ScheduleItemModel))) := by
  simp only [flattenScheduleItemModelArray]
  rw [foldl_append_nil]

/-- The elements of the expanded slice are the copies of the local entries. -/
theorem expand_toList (l : Slice ScheduleItemModel) :
    (pointerFrom (expandScheduleItemModelArray l)).toList =
      l.toList.map (fun v =>
        ({ StartDay := v.StartDay, StartTime := v.StartTime, StopDay := v.StopDay,
           StopTime := v.StopTime } : ScheduleItem)) := by
  rw [expand_eq]
  simp only [pointerFrom, collect_toList]

/-- Expanding then flattening an allocated, non-empty slice gives it back. -/
theorem flatten_expand_cons (x : ScheduleItemModel) (xs : List ScheduleItemModel) :
    flattenScheduleItemModelArray (expandScheduleItemModelArray (Slice.of (x :: xs))) =
      Slice.of (x :: xs) := by
  rw [expand_eq, flatten_some]
  simp only [Slice.toList, Slice.collect, List.map_cons, List.map_map]
  congr 2
  exact (List.map_congr_left (fun _ _ => rfl)).trans (List.map_id xs)

/-- Expanding then flattening any slice with at least one element gives it back. -/
theorem flatten_expand_of_ne_nil (l : Slice ScheduleItemModel) (h : l.toList ≠ []) :
    flattenScheduleItemModelArray (expandScheduleItemModelArray l) = l := by
  cases l with
  | nil => exact absurd rfl h
  | of xs =>
    cases xs with
    | nil => exact absurd rfl h
    | cons x xs => exact flatten_expand_cons x xs

/-! ## Mapper theorems -/

/-- C1: for every non-empty list of local schedule entries, flattening the expanded
list gives the list back: the same slice, hence the same length, and at every
index the same entry (all four fields), in the original order. -/
theorem flatten_expand_roundtrip (l : Slice ScheduleItemModel) (h : l.toList ≠ []) :
    flattenScheduleItemModelArray (expandScheduleItemModelArray l) = l ∧
    (flattenScheduleItemModelArray (expandScheduleItemModelArray l)).len = l.len ∧
    ∀ i : Nat,
      (flattenScheduleItemModelArray (expandScheduleItemModelArray l)).toList[i]? =
        l.toList[i]? := by
  rw [flatten_expand_of_ne_nil l h]
  exact ⟨rfl, rfl, fun _ => rfl⟩

/-- Witness for C1 on the one-entry list Monday 08:00 to Friday 18:00. -/
theorem flatten_expand_roundtrip_witness :
    (Slice.of [sampleEntry]).toList ≠ [] ∧
    flattenScheduleItemModelArray (expandScheduleItemModelArray (Slice.of [sampleEntry])) =
      Slice.of [sampleEntry] :=
  ⟨by simp [Slice.toList],
   (flatten_expand_roundtrip (Slice.of [sampleEntry]) (by simp [Slice.toList])).1⟩

/-- C5 as stated fails: the value returned for a nil input is the nil slice, so it
is not true that the result is both empty and non-nil. -/
theorem flatten_nil_not_non_null :
    ¬ ((flattenScheduleItemModelArray none).toList = [] ∧
       (flattenScheduleItemModelArray none).isNil = false) := by
  simp [flattenScheduleItemModelArray, Slice.isNil]

/-- C5 amended: applied to a nil input, flattenScheduleItemModelArray returns (it is a
total function) the nil slice, which holds no entries and has length zero. -/
theorem flatten_nil_is_empty :
    flattenScheduleItemModelArray none = Slice.nil ∧
    (flattenScheduleItemModelArray none).toList = [] ∧
    (flattenScheduleItemModelArray none).len = 0 :=
  ⟨rfl, rfl, rfl⟩

/-! ## Lifecycle theorems -/

/-- C2: in Create, whatever the declared description, schedule list and timezone,
when the owner identifier parses and the existence query returns no error and a
response that is not not-found, Create returns the requires-import
(AlreadyExists) error for that owner, and the only call it issues is the Get:
no CreateOrUpdate call and no resource identifier set. -/
theorem Create_existing_requires_import {σ : Type} (ids : Identifiers)
    (client : ManagedInstanceStartStopSchedulesClient σ) (metadata : ResourceMetaData) (s s1 : σ)
    (model : SqlManagedInstanceStartStopScheduleModel) (id : SqlManagedInstanceId)
    (existing : GetOperationResponse)
    (hdec : metadata.Decode = .ok model)
    (hparse : ids.ParseSqlManagedInstanceID model.SqlManagedInstanceId = (some id, none))
    (hget : client.Get id s = ((existing, none), s1))
    (hfound : WasNotFound existing.HttpResponse = false) :
    (Create ids client metadata s).ret = .returned (some (.requiresImport ResourceType id)) ∧
    (Error.requiresImport ResourceType id).isAlreadyExists = true ∧
    (Create ids client metadata s).effects = [.Get id] ∧
    (Create ids client metadata s).remote = s1 := by
  simp [Create, hdec, hparse, hget, hfound, Error.isAlreadyExists]

/-- Witness for C2: the sample configuration against a remote that answers Get
with status 200 and no error. -/
theorem Create_existing_requires_import_witness :
    (Create sampleIds (fixedClient { HttpResponse := some ⟨200⟩ } none none) sampleMetadata ()).ret =
        .returned (some (.requiresImport ResourceType sampleOwner)) ∧
    (Create sampleIds (fixedClient { HttpResponse := some ⟨200⟩ } none none) sampleMetadata ()).effects =
        [.Get sampleOwner] :=
  have h := Create_existing_requires_import sampleIds
    (fixedClient { HttpResponse := some ⟨200⟩ } none none) sampleMetadata () () sampleModel
    sampleOwner { HttpResponse := some ⟨200⟩ } rfl rfl rfl rfl
  ⟨h.1, h.2.2.1⟩

/-- C4: in Read, when the owner identifier parses and the remote Get returns an
error: if the response is not-found, Read returns what marking the resource as
gone returns (never a RemoteCallFailure), and issues the Get and the
mark-as-gone only, so no state is encoded; otherwise Read returns the
RemoteCallFailure error of the retrieval and issues the Get only, so the
resource is not marked gone. -/
theorem Read_get_error {σ : Type} (ids : Identifiers)
    (client : ManagedInstanceStartStopSchedulesClient σ) (metadata : ResourceMetaData) (s s1 : σ)
    (id : SqlManagedInstanceId) (resp : GetOperationResponse) (cause : Fault)
    (hparse : ids.ParseSqlManagedInstanceID metadata.managed_instance_id = (some id, none))
    (hget : client.Get id s = ((resp, some cause), s1)) :
    (WasNotFound resp.HttpResponse = true →
      (Read ids client metadata s).ret = .returned ((metadata.MarkAsGone id).map .passed) ∧
      (∀ e, (Read ids client metadata s).ret = .returned (some e) →
        e.isRemoteCallFailure = false) ∧
      (Read ids client metadata s).effects = [.Get id, .MarkAsGone id]) ∧
    (WasNotFound resp.HttpResponse = false →
      (Read ids client metadata s).ret = .returned (some (.retrieving id cause)) ∧
      (Error.retrieving id cause).isRemoteCallFailure = true ∧
      (Read ids client metadata s).effects = [.Get id]) := by
  constructor
  · intro hnf
    have hret : (Read ids client metadata s).ret =
        .returned ((metadata.MarkAsGone id).map .passed) := by
      simp [Read, hparse, hget, hnf]
    refine ⟨hret, ?_, ?_⟩
    · intro e he
      rw [hret] at he
      cases hm : metadata.MarkAsGone id with
      | none => simp [hm] at he
      | some f =>
        simp [hm] at he
        subst he
        rfl
    · simp [Read, hparse, hget, hnf]
  · intro hnf
    simp [Read, hparse, hget, hnf, Error.isRemoteCallFailure]

/-- Witness for C4: the sample owner against a remote that answers Get with
status 404 and an error. -/
theorem Read_get_error_witness :
    (Read sampleIds (fixedClient { HttpResponse := some ⟨404⟩ } (some "not found") none)
        sampleMetadata ()).ret = .returned none ∧
    (Read sampleIds (fixedClient { HttpResponse := some ⟨404⟩ } (some "not found") none)
        sampleMetadata ()).effects = [.Get sampleOwner, .MarkAsGone sampleOwner] :=
  have h := (Read_get_error sampleIds
    (fixedClient { HttpResponse := some ⟨404⟩ } (some "not found") none) sampleMetadata () ()
    sampleOwner { HttpResponse := some ⟨404⟩ } "not found" rfl rfl).1 rfl
  ⟨h.1, h.2.2⟩

/-- C8: in Delete, when the resource identifier parses to (subscription, resource
group, instance name, schedule name), exactly one call is issued, the remote
Delete against the owner (subscription, resource group, instance name), and
Delete returns an error exactly when that remote call does: the remote error is
returned wrapped, never turned into success. -/
theorem Delete_one_call_error_iff {σ : Type} (ids : Identifiers)
    (client : ManagedInstanceStartStopSchedulesClient σ) (metadata : ResourceMetaData) (s : σ)
    (id : ManagedInstanceStartStopScheduleId)
    (hparse : ids.ManagedInstanceStartStopScheduleID metadata.Id = (some id, none)) :
    (Delete ids client metadata s).effects =
      [.Delete ⟨id.SubscriptionId, id.ResourceGroup, id.ManagedInstanceName⟩] ∧
    (Delete ids client metadata s).ret =
      .returned ((client.Delete ⟨id.SubscriptionId, id.ResourceGroup, id.ManagedInstanceName⟩ s).1.map
        (Error.deleting id)) ∧
    ((Delete ids client metadata s).ret = .returned none ↔
      (client.Delete ⟨id.SubscriptionId, id.ResourceGroup, id.ManagedInstanceName⟩ s).1 = none) ∧
    (Delete ids client metadata s).remote =
      (client.Delete ⟨id.SubscriptionId, id.ResourceGroup, id.ManagedInstanceName⟩ s).2 := by
  rcases hd : client.Delete ⟨id.SubscriptionId, id.ResourceGroup, id.ManagedInstanceName⟩ s
    with ⟨err, s1⟩
  cases err <;> simp [Delete, hparse, NewSqlManagedInstanceID, hd]

/-- Witness for C8: deleting the sample schedule while the remote Delete fails
(as for an object already deleted) returns the wrapped remote error. -/
theorem Delete_one_call_error_iff_witness :
    (Delete sampleIds (fixedClient {} none (some "gone")) sampleMetadata ()).effects =
      [.Delete sampleOwner] ∧
    (Delete sampleIds (fixedClient {} none (some "gone")) sampleMetadata ()).ret =
      .returned (some (.deleting ⟨"sub1", "rg1", "mi1", "default"⟩ "gone")) :=
  have h := Delete_one_call_error_iff sampleIds (fixedClient {} none (some "gone"))
    sampleMetadata () ⟨"sub1", "rg1", "mi1", "default"⟩ rfl
  ⟨h.1, h.2.1⟩

/-- The payload block of `Create`, in closed form. -/
theorem createProperties_eq (model : SqlManagedInstanceStartStopScheduleModel) :
    createProperties model =
      { Properties := some
          { Description := (if model.Description = "" then none else some model.Description),
            ScheduleList := pointerFrom (expandScheduleItemModelArray model.ScheduleList),
            TimeZoneId := (if model.TimeZoneId = "" then none else some model.TimeZoneId) } } := by
  unfold createProperties
  by_cases hd : model.Description = "" <;> by_cases ht : model.TimeZoneId = "" <;> simp [hd, ht]

/-- The run of `Create` once the existence check has reported not-found. -/
theorem Create_run_not_found {σ : Type} (ids : Identifiers)
    (client : ManagedInstanceStartStopSchedulesClient σ) (metadata : ResourceMetaData) (s s1 : σ)
    (model : SqlManagedInstanceStartStopScheduleModel) (id : SqlManagedInstanceId)
    (existing : GetOperationResponse) (err : Option Fault)
    (hdec : metadata.Decode = .ok model)
    (hparse : ids.ParseSqlManagedInstanceID model.SqlManagedInstanceId = (some id, none))
    (hget : client.Get id s = ((existing, err), s1))
    (hnf : WasNotFound existing.HttpResponse = true) :
    Create ids client metadata s =
      match client.CreateOrUpdate id (createProperties model) s1 with
      | (some e, s2) =>
        ⟨.returned (some (.creating id e)), s2,
          [.Get id, .CreateOrUpdate id (createProperties model)]⟩
      | (none, s2) =>
        ⟨.returned none, s2,
          [.Get id, .CreateOrUpdate id (createProperties model),
           .SetID ⟨id.SubscriptionId, id.ResourceGroupName, id.ManagedInstanceName,
             "default"⟩]⟩ := by
  rcases hcu : client.CreateOrUpdate id (createProperties model) s1 with ⟨e, s2⟩
  cases err <;> cases e <;>
    simp [Create, hdec, hparse, hget, hnf, hcu, NewManagedInstanceStartStopScheduleID]

/-- C7: in Create, when the existence check reports not-found, exactly one
CreateOrUpdate call is issued, for the parsed owner, and its payload is: a
properties body whose description is the declared one when non-empty and absent
otherwise, whose timezone is the declared one when non-empty and absent
otherwise, whose schedule list has the declared length with the i-th entry
copying the four fields of the i-th declared entry; every other field of the
body and of the payload is absent. -/
theorem Create_payload {σ : Type} (ids : Identifiers)
    (client : ManagedInstanceStartStopSchedulesClient σ) (metadata : ResourceMetaData) (s s1 : σ)
    (model : SqlManagedInstanceStartStopScheduleModel) (id : SqlManagedInstanceId)
    (existing : GetOperationResponse) (err : Option Fault)
    (hdec : metadata.Decode = .ok model)
    (hparse : ids.ParseSqlManagedInstanceID model.SqlManagedInstanceId = (some id, none))
    (hget : client.Get id s = ((existing, err), s1))
    (hnf : WasNotFound existing.HttpResponse = true) :
    ∃ (payload : StartStopManagedInstanceSchedule)
      (body : StartStopManagedInstanceScheduleProperties),
      (Create ids client metadata s).effects.filter Effect.isCreateOrUpdate =
        [.CreateOrUpdate id payload] ∧
      payload.Properties = some body ∧
      body.Description = (if model.Description = "" then none else some model.Description) ∧
      body.TimeZoneId = (if model.TimeZoneId = "" then none else some model.TimeZoneId) ∧
      body.ScheduleList.len = model.ScheduleList.len ∧
      (∀ i : Nat, body.ScheduleList.toList[i]? =
        (model.ScheduleList.toList[i]?).map (fun v =>
          ({ StartDay := v.StartDay, StartTime := v.StartTime, StopDay := v.StopDay,
             StopTime := v.StopTime } : ScheduleItem))) ∧
      body.NextExecutionTime = none ∧ body.NextRunAction = none ∧
      payload.Id = none ∧ payload.Name = none ∧ payload.SystemData = none ∧
      payload.Type_ = none := by
  have hrun :=
    Create_run_not_found ids client metadata s s1 model id existing err hdec hparse hget hnf
  refine ⟨createProperties model, _, ?_, congrArg _ (createProperties_eq model), rfl, rfl, ?_, ?_,
    rfl, rfl, ?_, ?_, ?_, ?_⟩
  · rw [hrun]
    rcases client.CreateOrUpdate id (createProperties model) s1 with ⟨e, s2⟩
    cases e <;> simp [Effect.isCreateOrUpdate]
  · show (pointerFrom (expandScheduleItemModelArray model.ScheduleList)).len = _
    rw [Slice.len, expand_toList, Slice.len, List.length_map]
  · intro i
    show (pointerFrom (expandScheduleItemModelArray model.ScheduleList)).toList[i]? = _
    rw [expand_toList, List.getElem?_map]
  all_goals rw [createProperties_eq]

/-- Witness for C7: the sample configuration (empty description and timezone,
one entry) against a remote that answers Get with status 404 and an error. -/
theorem Create_payload_witness :
    ∃ (payload : StartStopManagedInstanceSchedule)
      (body : StartStopManagedInstanceScheduleProperties),
      (Create sampleIds (fixedClient { HttpResponse := some ⟨404⟩ } (some "not found") none)
        sampleMetadata ()).effects.filter Effect.isCreateOrUpdate =
        [.CreateOrUpdate sampleOwner payload] ∧
      payload.Properties = some body ∧ body.Description = none ∧ body.TimeZoneId = none ∧
      body.ScheduleList.len = 1 :=
  have ⟨payload, body, h1, h2, h3, h4, h5, _⟩ := Create_payload sampleIds
    (fixedClient { HttpResponse := some ⟨404⟩ } (some "not found") none) sampleMetadata () ()
    sampleModel sampleOwner { HttpResponse := some ⟨404⟩ } (some "not found") rfl rfl rfl rfl
  ⟨payload, body, h1, h2, h3, h4, h5⟩

/-- The patching block of `Update` on a payload whose properties body is
present, in closed form. -/
theorem patchProperties_present (metadata : ResourceMetaData)
    (model : SqlManagedInstanceStartStopScheduleModel)
    (fetched : StartStopManagedInstanceSchedule)
    (body : StartStopManagedInstanceScheduleProperties)
    (hbody : fetched.Properties = some body) :
    patchProperties metadata model fetched =
      some
        { fetched with
          Properties := some
            { body with
              Description :=
                (if metadata.HasChange "description" then
                  (if model.Description = "" then none else some model.Description)
                 else body.Description),
              ScheduleList :=
                (if metadata.HasChange "schedule_list" then
                  pointerFrom (expandScheduleItemModelArray model.ScheduleList)
                 else body.ScheduleList),
              TimeZoneId :=
                (if metadata.HasChange "timezone_id" then
                  (if model.TimeZoneId = "" then none else some model.TimeZoneId)
                 else body.TimeZoneId) },
          SystemData := none } := by
  cases fetched with
  | mk fid fname fprops fsys ftype =>
    simp only at hbody
    subst hbody
    cases body with
    | mk d n r l t =>
      cases h1 : metadata.HasChange "description" <;>
        cases h2 : metadata.HasChange "schedule_list" <;>
        cases h3 : metadata.HasChange "timezone_id" <;>
        by_cases hd : model.Description = "" <;> by_cases ht : model.TimeZoneId = "" <;>
        simp [patchProperties, assignProperties, h1, h2, h3, hd, ht]

/-- The run of `Update` on a fetched payload whose properties body is present. -/
theorem Update_run_present {σ : Type} (ids : Identifiers)
    (client : ManagedInstanceStartStopSchedulesClient σ) (metadata : ResourceMetaData) (s s1 : σ)
    (model : SqlManagedInstanceStartStopScheduleModel) (id : SqlManagedInstanceId)
    (resp : GetOperationResponse) (fetched payload : StartStopManagedInstanceSchedule)
    (hparse : ids.ParseSqlManagedInstanceID metadata.managed_instance_id = (some id, none))
    (hdec : metadata.Decode = .ok model)
    (hget : client.Get id s = ((resp, none), s1))
    (hmodel : resp.Model = some fetched)
    (hpatch : patchProperties metadata model fetched = some payload) :
    (Update ids client metadata s).effects = [.Get id, .CreateOrUpdate id payload] ∧
    (Update ids client metadata s).ret =
      .returned ((client.CreateOrUpdate id payload s1).1.map (Error.updating id)) := by
  rcases hcu : client.CreateOrUpdate id payload s1 with ⟨e, s2⟩
  cases e <;> simp [Update, hparse, hdec, hget, hmodel, hpatch, hcu]

/-- C3: in Update, for a fetched payload whose model and properties body are
present, exactly one CreateOrUpdate call is issued and, in its payload, the
description is absent (not a pointer to an empty string) when description is
reported changed and declared empty; likewise the timezone is absent when
timezone_id is reported changed and declared empty. -/
theorem Update_clears_empty_fields {σ : Type} (ids : Identifiers)
    (client : ManagedInstanceStartStopSchedulesClient σ) (metadata : ResourceMetaData) (s s1 : σ)
    (model : SqlManagedInstanceStartStopScheduleModel) (id : SqlManagedInstanceId)
    (resp : GetOperationResponse) (fetched : StartStopManagedInstanceSchedule)
    (body : StartStopManagedInstanceScheduleProperties)
    (hparse : ids.ParseSqlManagedInstanceID metadata.managed_instance_id = (some id, none))
    (hdec : metadata.Decode = .ok model)
    (hget : client.Get id s = ((resp, none), s1))
    (hmodel : resp.Model = some fetched)
    (hbody : fetched.Properties = some body) :
    ∃ (payload : StartStopManagedInstanceSchedule)
      (sent : StartStopManagedInstanceScheduleProperties),
      (Update ids client metadata s).effects = [.Get id, .CreateOrUpdate id payload] ∧
      payload.Properties = some sent ∧
      (metadata.HasChange "description" = true → model.Description = "" →
        sent.Description = none) ∧
      (metadata.HasChange "timezone_id" = true → model.TimeZoneId = "" →
        sent.TimeZoneId = none) := by
  have hpatch := patchProperties_present metadata model fetched body hbody
  refine ⟨_, _, (Update_run_present ids client metadata s s1 model id resp fetched _ hparse hdec
    hget hmodel hpatch).1, rfl, ?_, ?_⟩
  · intro hc he
    simp [hc, he]
  · intro hc he
    simp [hc, he]

/-- Witness for C3: the sample configuration declares an empty description and
timezone, both reported changed, over a fetched payload that had both set. -/
theorem Update_clears_empty_fields_witness :
    ∃ (payload : StartStopManagedInstanceSchedule)
      (sent : StartStopManagedInstanceScheduleProperties),
      (Update sampleIds (fixedClient { Model := some sampleFetched } none none) sampleMetadata
        ()).effects = [.Get sampleOwner, .CreateOrUpdate sampleOwner payload] ∧
      payload.Properties = some sent ∧ sent.Description = none ∧ sent.TimeZoneId = none :=
  have ⟨payload, sent, h1, h2, h3, h4⟩ := Update_clears_empty_fields sampleIds
    (fixedClient { Model := some sampleFetched } none none) sampleMetadata () () sampleModel
    sampleOwner { Model := some sampleFetched } sampleFetched _ rfl rfl rfl rfl rfl
  ⟨payload, sent, h1, h2, h3 (by decide) rfl, h4 (by decide) rfl⟩

/-- C10: in Update, for a fetched payload whose model and properties body are
present, the payload of the one CreateOrUpdate call is the fetched payload
patched as follows and in no other way: each of description, schedule list and
timezone reported changed is overwritten from the declared value (absent for an
empty string, the expanded list for the schedule list), each one not reported
changed is as fetched, the system metadata is absent, and the name, the next
execution time, the next run action and the remaining envelope fields are as
fetched. -/
theorem Update_payload_frame {σ : Type} (ids : Identifiers)
    (client : ManagedInstanceStartStopSchedulesClient σ) (metadata : ResourceMetaData) (s s1 : σ)
    (model : SqlManagedInstanceStartStopScheduleModel) (id : SqlManagedInstanceId)
    (resp : GetOperationResponse) (fetched : StartStopManagedInstanceSchedule)
    (body : StartStopManagedInstanceScheduleProperties)
    (hparse : ids.ParseSqlManagedInstanceID metadata.managed_instance_id = (some id, none))
    (hdec : metadata.Decode = .ok model)
    (hget : client.Get id s = ((resp, none), s1))
    (hmodel : resp.Model = some fetched)
    (hbody : fetched.Properties = some body) :
    ∃ (payload : StartStopManagedInstanceSchedule)
      (sent : StartStopManagedInstanceScheduleProperties),
      (Update ids client metadata s).effects = [.Get id, .CreateOrUpdate id payload] ∧
      payload.Properties = some sent ∧
      sent.Description =
        (if metadata.HasChange "description" then
          (if model.Description = "" then none else some model.Description)
         else body.Description) ∧
      sent.ScheduleList =
        (if metadata.HasChange "schedule_list" then
          pointerFrom (expandScheduleItemModelArray model.ScheduleList)
         else body.ScheduleList) ∧
      sent.TimeZoneId =
        (if metadata.HasChange "timezone_id" then
          (if model.TimeZoneId = "" then none else some model.TimeZoneId)
         else body.TimeZoneId) ∧
      sent.NextExecutionTime = body.NextExecutionTime ∧
      sent.NextRunAction = body.NextRunAction ∧
      payload.SystemData = none ∧
      payload.Name = fetched.Name ∧ payload.Id = fetched.Id ∧ payload.Type_ = fetched.Type_ := by
  have hpatch := patchProperties_present metadata model fetched body hbody
  exact ⟨_, _, (Update_run_present ids client metadata s s1 model id resp fetched _ hparse hdec
    hget hmodel hpatch).1, rfl, rfl, rfl, rfl, rfl, rfl, rfl, rfl, rfl, rfl⟩

/-- Witness for C10: on the sample fetched payload, with description and
timezone reported changed and declared empty, the payload sent keeps the name,
the schedule list and the computed fields, and drops the system metadata. -/
theorem Update_payload_frame_witness :
    ∃ (payload : StartStopManagedInstanceSchedule)
      (sent : StartStopManagedInstanceScheduleProperties),
      (Update sampleIds (fixedClient { Model := some sampleFetched } none none) sampleMetadata
        ()).effects = [.Get sampleOwner, .CreateOrUpdate sampleOwner payload] ∧
      payload.Properties = some sent ∧
      sent.ScheduleList = Slice.of [] ∧ sent.NextExecutionTime = some "t" ∧
      sent.NextRunAction = some "Start" ∧ payload.SystemData = none ∧
      payload.Name = some "default" :=
  have ⟨payload, sent, h1, h2, _, h4, _, h6, h7, h8, h9, _⟩ := Update_payload_frame sampleIds
    (fixedClient { Model := some sampleFetched } none none) sampleMetadata () () sampleModel
    sampleOwner { Model := some sampleFetched } sampleFetched _ rfl rfl rfl rfl rfl
  ⟨payload, sent, h1, h2, h4, h6, h7, h8, h9⟩

/-- C9 fails on the code: when the fetched model is present but its properties
body is absent, Update with a field reported changed dereferences the absent
body and panics after the Get, and Update with no field reported changed sends
the body-less payload to CreateOrUpdate and returns success; in neither case
is a RemoteCallFailure error returned. -/
theorem Update_absent_body_not_guarded :
    (Update sampleIds (fixedClient { Model := some { Properties := none } } none none)
      sampleMetadata ()).ret = .panicked ∧
    (Update sampleIds (fixedClient { Model := some { Properties := none } } none none)
      sampleMetadataUnchanged ()).ret = .returned none ∧
    (Update sampleIds (fixedClient { Model := some { Properties := none } } none none)
      sampleMetadataUnchanged ()).effects =
        [.Get sampleOwner, .CreateOrUpdate sampleOwner { Properties := none }] := by
  refine ⟨?_, ?_, ?_⟩ <;> rfl

/-- The guarded part of C9: when the retrieval errors, or the fetched model is
absent, Update returns a RemoteCallFailure error and issues only the Get. -/
theorem Update_retrieval_failure {σ : Type} (ids : Identifiers)
    (client : ManagedInstanceStartStopSchedulesClient σ) (metadata : ResourceMetaData) (s s1 : σ)
    (model : SqlManagedInstanceStartStopScheduleModel) (id : SqlManagedInstanceId)
    (resp : GetOperationResponse) (err : Option Fault)
    (hparse : ids.ParseSqlManagedInstanceID metadata.managed_instance_id = (some id, none))
    (hdec : metadata.Decode = .ok model)
    (hget : client.Get id s = ((resp, err), s1))
    (hfail : err ≠ none ∨ resp.Model = none) :
    (∃ e, (Update ids client metadata s).ret = .returned (some e) ∧
      e.isRemoteCallFailure = true) ∧
    (Update ids client metadata s).effects = [.Get id] := by
  cases err with
  | some cause => simp [Update, hparse, hdec, hget, Error.isRemoteCallFailure]
  | none =>
    have hm : resp.Model = none := by simpa using hfail
    simp [Update, hparse, hdec, hget, hm, Error.isRemoteCallFailure]

/-- The schedule list of the state `Read` builds from a response whose model
and properties body are present and whose schedule list is allocated. -/
theorem readState_ScheduleList (ids : Identifiers) (id : SqlManagedInstanceId)
    (resp : GetOperationResponse) (fetched : StartStopManagedInstanceSchedule)
    (body : StartStopManagedInstanceScheduleProperties)
    (hmodel : resp.Model = some fetched) (hbody : fetched.Properties = some body)
    (halloc : body.ScheduleList.isNil = false) :
    (readState ids id resp).ScheduleList =
      flattenScheduleItemModelArray (some body.ScheduleList) := by
  simp only [readState, hmodel, hbody, halloc]
  cases fetched.Name <;> cases body.Description <;> cases body.NextExecutionTime <;>
    cases body.NextRunAction <;> cases body.TimeZoneId <;> rfl

/-- C6: end to end over a remote store in which owner X is Absent and Get answers
not-found while Absent. For a declared configuration whose owner identifier
parses to X and whose schedule list is non-empty, Create succeeds, its calls are
the Get, the CreateOrUpdate and the setting of the resource identifier
(X.subscription, X.resourceGroup, X.instanceName, "default"), and a following
Read, on the store Create left, encodes a state whose schedule list equals the
declared list. -/
theorem Create_then_Read_end_to_end (ids : Identifiers)
    (absent : GetOperationResponse × Option Fault) (present : Ptr HttpResponse)
    (declared tracked : ResourceMetaData) (model : SqlManagedInstanceStartStopScheduleModel)
    (X : SqlManagedInstanceId) (st : Store)
    (hdec : declared.Decode = .ok model)
    (hparse : ids.ParseSqlManagedInstanceID model.SqlManagedInstanceId = (some X, none))
    (htracked : tracked.managed_instance_id = model.SqlManagedInstanceId)
    (habsent : st X = none)
    (hnf : WasNotFound absent.1.HttpResponse = true)
    (hne : model.ScheduleList.toList ≠ []) :
    (Create ids (storeClient absent present) declared st).ret = .returned none ∧
    (Create ids (storeClient absent present) declared st).effects =
      [.Get X, .CreateOrUpdate X (createProperties model),
       .SetID ⟨X.SubscriptionId, X.ResourceGroupName, X.ManagedInstanceName, "default"⟩] ∧
    ∃ state : SqlManagedInstanceStartStopScheduleModel,
      (Read ids (storeClient absent present) tracked
        (Create ids (storeClient absent present) declared st).remote).effects =
        [.Get X, .Encode state] ∧
      state.ScheduleList = model.ScheduleList ∧
      state.ScheduleList.len = model.ScheduleList.len ∧
      ∀ i : Nat, state.ScheduleList.toList[i]? = model.ScheduleList.toList[i]? := by
  have hget : (storeClient absent present).Get X st = ((absent.1, absent.2), st) := by
    simp [storeClient, habsent]
  have hrun := Create_run_not_found ids (storeClient absent present) declared st st model X
    absent.1 absent.2 hdec hparse hget hnf
  have hcu : (storeClient absent present).CreateOrUpdate X (createProperties model) st =
      (none, Function.update st X (some (createProperties model))) := rfl
  rw [hcu] at hrun
  simp only at hrun
  rw [hrun]
  refine ⟨rfl, rfl, ?_⟩
  have hget2 : (storeClient absent present).Get X
      (Function.update st X (some (createProperties model))) =
      (({ HttpResponse := present, Model := some (createProperties model) }, none),
        Function.update st X (some (createProperties model))) := by
    simp [storeClient]
  have hread : (Read ids (storeClient absent present) tracked
      (Function.update st X (some (createProperties model)))).effects =
      [.Get X, .Encode (readState ids X
        { HttpResponse := present, Model := some (createProperties model) })] := by
    simp [Read, htracked, hparse, hget2]
  have hlist : (readState ids X
        { HttpResponse := present, Model := some (createProperties model) }).ScheduleList =
      model.ScheduleList := by
    have halloc : (pointerFrom (expandScheduleItemModelArray model.ScheduleList)).isNil =
        false := by
      rw [expand_eq]
      cases hl : model.ScheduleList.toList with
      | nil => exact absurd hl hne
      | cons x xs => rfl
    rw [readState_ScheduleList ids X _ (createProperties model) _ rfl
      (congrArg _ (createProperties_eq model)) halloc]
    exact flatten_expand_of_ne_nil model.ScheduleList hne
  exact ⟨_, hread, hlist, by rw [hlist], fun i => by rw [hlist]⟩

/-- Witness for C6: the sample owner, Absent in the empty store, with the
one-entry schedule Monday 08:00 to Friday 18:00. -/
theorem Create_then_Read_end_to_end_witness :
    (Create sampleIds (storeClient ({ HttpResponse := some ⟨404⟩ }, some "not found") (some ⟨200⟩))
      sampleMetadata (fun _ => none)).ret = .returned none ∧
    ∃ state : SqlManagedInstanceStartStopScheduleModel,
      (Read sampleIds (storeClient ({ HttpResponse := some ⟨404⟩ }, some "not found") (some ⟨200⟩))
        sampleMetadata
        (Create sampleIds
          (storeClient ({ HttpResponse := some ⟨404⟩ }, some "not found") (some ⟨200⟩))
          sampleMetadata (fun _ => none)).remote).effects = [.Get sampleOwner, .Encode state] ∧
      state.ScheduleList = Slice.of [sampleEntry] :=
  have ⟨h1, _, state, h3, h4, _⟩ := Create_then_Read_end_to_end sampleIds
    ({ HttpResponse := some ⟨404⟩ }, some "not found") (some ⟨200⟩) sampleMetadata sampleMetadata
    sampleModel sampleOwner (fun _ => none) rfl rfl rfl rfl rfl (by simp [sampleModel, Slice.toList])
  ⟨h1, state, h3, h4⟩

end MssqlManagedInstance
